import Mathlib

/-
Formal model of the HTLC (Hashed Timelock Contract) keeper of
app/v2/htlc/internal/keeper/keeper.go.

The keeper's operations (CreateHTLC, ClaimHTLC, RefundHTLC) are embedded as
pure Lean functions that thread the backing key-value store explicitly and
log every invocation of the bank transfer collaborator.  External
collaborators that are not part of the repository's core (the SHA-256 hash,
the tendermint address hash, and the bank's SendCoins) are passed in as
function parameters, so every theorem below holds for every choice of those
collaborators.  Event/tag emission and the coin-flow tags are an external
notification surface and carry no state, so they are not modelled.
-/

set_option autoImplicit false

namespace HtlcKeeper

/-- Byte strings ([]byte in Go) are modelled as lists of naturals; each entry
stands for one byte. -/
abbrev Bytes := List Nat

/-- Modelled from the spec: account identifiers (sdk.AccAddress, defined
outside this repository's core) are opaque byte strings. -/
abbrev AccAddress := Bytes

/-- Modelled from the spec: the escrowed asset is a (denomination, quantity)
pair (sdk.Coin is defined outside this repository's core). -/
structure Coin where
  Denom : String
  Amount : Nat
  deriving DecidableEq, Repr

/-- Modelled from the spec: the four contract states Open, Completed,
Expired, Refunded (types.HTLCState is defined in types/, not under src/). -/
inductive HTLCState where
  | Open
  | Completed
  | Expired
  | Refunded
  deriving DecidableEq, Repr

/-- Modelled from the spec: the contract record (types.HTLC is defined in
types/, not under src/); fields follow the spec's data model and the field
accesses made by keeper.go. -/
structure HTLC where
  Sender : AccAddress
  Receiver : AccAddress
  ReceiverOnOtherChain : Bytes
  OutAmount : Coin
  Secret : Bytes
  Timestamp : Nat
  State : HTLCState
  ExpireHeight : Nat
  deriving DecidableEq, Repr

/-- A value held by the backing key-value store.  The Go code stores
codec-serialized bytes; the codec is an external collaborator whose
(de)serialization is assumed faithful, so values are modelled as the typed
payloads: a marshalled HTLC record, or a marshalled digest (the value
written by AddHTLCToExpireQueue). -/
inductive StoreValue where
  | record (h : HTLC)
  | digest (d : Bytes)
  deriving DecidableEq, Repr

/-- Modelled from the spec: the durable key-value collaborator, an
association list from byte keys to stored values (most recent write
first). -/
abbrev Store := List (Bytes × StoreValue)

/-- store.Get: the value at key k, if present. -/
def storeGet : Store → Bytes → Option StoreValue
  | [], _ => none
  | e :: rest, k => if e.1 = k then some e.2 else storeGet rest k

/-- store.Delete: remove every entry at key k. -/
def storeDelete : Store → Bytes → Store
  | [], _ => []
  | e :: rest, k => if e.1 = k then storeDelete rest k else e :: storeDelete rest k

/-- store.Set: overwrite the value at key k. -/
def storeSet (s : Store) (k : Bytes) (v : StoreValue) : Store :=
  (k, v) :: storeDelete s k

/-- store.Has: existence check. -/
def storeHas (s : Store) (k : Bytes) : Bool :=
  (storeGet s k).isSome

/-- Modelled from the spec: a string's bytes (Go's []byte(string)). -/
def strToBytes (s : String) : Bytes :=
  s.data.map Char.toNat

/-- Modelled from the spec: sdk.Uint64ToBigEndian (defined outside this
repository's core) — the 8-byte big-endian encoding of a uint64. -/
def uint64ToBigEndian (n : Nat) : Bytes :=
  [n / 2 ^ 56 % 256, n / 2 ^ 48 % 256, n / 2 ^ 40 % 256, n / 2 ^ 32 % 256,
   n / 2 ^ 24 % 256, n / 2 ^ 16 % 256, n / 2 ^ 8 % 256, n % 256]

/-- Big-endian decoding, used to state that uint64ToBigEndian really is the
big-endian encoding. -/
def bytesToNatBE (bs : Bytes) : Nat :=
  bs.foldl (fun a b => a * 256 + b) 0

/-- Modelled from the spec: the record key layout (keys.go is not under
src/): prefix "htlc:" followed by the digest. -/
def KeyHTLC (secretHashLock : Bytes) : Bytes :=
  strToBytes "htlc:" ++ secretHashLock

/-- Modelled from the spec: the expiration-index key layout (keys.go is not
under src/): prefix "htlc:expire:" followed by the big-endian expire height
and the digest, so lexicographic key order equals (height, digest) order. -/
def KeyHTLCExpireQueue (expireHeight : Nat) (secretHashLock : Bytes) : Bytes :=
  strToBytes "htlc:expire:" ++ uint64ToBigEndian expireHeight ++ secretHashLock

/-- getHTLCAddress: the per-denomination escrow address,
crypto.AddressHash([]byte(denom)).  The hash itself (addrHash) is the
external tendermint collaborator, passed as a parameter. -/
def getHTLCAddress (addrHash : Bytes → Bytes) (denom : String) : AccAddress :=
  addrHash (strToBytes denom)

/-- GetSecretHashLock: the hash lock of (secret, timestamp), i.e.
sdk.SHA256(append(secret, sdk.Uint64ToBigEndian(timestamp)...)).  The hash
itself is the external SHA-256 collaborator, passed as a parameter. -/
def GetSecretHashLock (hash : Bytes → Bytes) (secret : Bytes) (timestamp : Nat) : Bytes :=
  hash (secret ++ uint64ToBigEndian timestamp)

/-- The keeper's error outcomes (types/errors.go is not under src/; the
constructors mirror the error constructors keeper.go invokes, plus the
propagated bank error and the codec panic, which aborts and rolls back the
surrounding transaction and is therefore modelled as an error outcome). -/
inductive Err where
  /-- ErrSecretHashLockAlreadyExists (CreateHTLC's duplicate check). -/
  | secretHashLockAlreadyExists
  /-- ErrInvalidSecretHashLock (GetHTLC on an absent key). -/
  | invalidSecretHashLock
  /-- ErrStateIsNotOpen (the InvalidState error, used by both ClaimHTLC's
  not-Open check and RefundHTLC's not-Expired check). -/
  | stateIsNotOpen
  /-- ErrInvalidSecret (ClaimHTLC's digest verification failure). -/
  | invalidSecret
  /-- An error propagated verbatim from the bank's SendCoins. -/
  | sendCoinsFailed
  /-- MustUnmarshalBinaryLengthPrefixed finding a non-record payload. -/
  | codecFailure
  deriving DecidableEq, Repr

/-- One invocation of the bank collaborator's SendCoins. -/
structure Transfer where
  fromAddr : AccAddress
  toAddr : AccAddress
  amount : Coin
  deriving DecidableEq, Repr

/-- The observable outcome of one keeper operation: the store after the
call, the SendCoins invocations made during it (in order), and the error
returned, if any. -/
structure OpResult where
  store : Store
  transfers : List Transfer
  err : Option Err
  deriving DecidableEq, Repr

/-- A bank collaborator behaviour: whether SendCoins(from, to, coin)
succeeds. -/
abbrev BankOk := AccAddress → AccAddress → Coin → Bool

/-- HasSecretHashLock: store.Has(KeyHTLC(secretHashLock)). -/
def HasSecretHashLock (s : Store) (secretHashLock : Bytes) : Bool :=
  storeHas s (KeyHTLC secretHashLock)

/-- SetHTLC: store the (marshalled) htlc at KeyHTLC(secretHashLock). -/
def SetHTLC (s : Store) (htlc : HTLC) (secretHashLock : Bytes) : Store :=
  storeSet s (KeyHTLC secretHashLock) (StoreValue.record htlc)

/-- GetHTLC: retrieve the htlc at KeyHTLC(secretHashLock); an absent key
yields ErrInvalidSecretHashLock, a non-record payload makes
MustUnmarshalBinaryLengthPrefixed panic (modelled as Err.codecFailure). -/
def GetHTLC (s : Store) (secretHashLock : Bytes) : Except Err HTLC :=
  match storeGet s (KeyHTLC secretHashLock) with
  | none => Except.error Err.invalidSecretHashLock
  | some (StoreValue.record htlc) => Except.ok htlc
  | some (StoreValue.digest _) => Except.error Err.codecFailure

/-- AddHTLCToExpireQueue: store the marshalled digest at
KeyHTLCExpireQueue(expireHeight, secretHashLock). -/
def AddHTLCToExpireQueue (s : Store) (expireHeight : Nat) (secretHashLock : Bytes) : Store :=
  storeSet s (KeyHTLCExpireQueue expireHeight secretHashLock) (StoreValue.digest secretHashLock)

/-- DeleteHTLCFromExpireQueue: delete the key
KeyHTLCExpireQueue(expireHeight, secretHashLock). -/
def DeleteHTLCFromExpireQueue (s : Store) (expireHeight : Nat) (secretHashLock : Bytes) : Store :=
  storeDelete s (KeyHTLCExpireQueue expireHeight secretHashLock)

/-- CreateHTLC: reject a duplicate hash lock, transfer the escrowed amount
from the sender to the denomination's escrow address, then store the record
and insert the expiration-index entry. -/
def CreateHTLC (addrHash : Bytes → Bytes) (bankOk : BankOk) (s : Store)
    (htlc : HTLC) (secretHashLock : Bytes) : OpResult :=
  if HasSecretHashLock s secretHashLock then
    ⟨s, [], some Err.secretHashLockAlreadyExists⟩
  else
    let htlcAddr := getHTLCAddress addrHash htlc.OutAmount.Denom
    let t : Transfer := ⟨htlc.Sender, htlcAddr, htlc.OutAmount⟩
    if bankOk htlc.Sender htlcAddr htlc.OutAmount then
      let s1 := SetHTLC s htlc secretHashLock
      let s2 := AddHTLCToExpireQueue s1 htlc.ExpireHeight secretHashLock
      ⟨s2, [t], none⟩
    else
      ⟨s, [t], some Err.sendCoinsFailed⟩

/-- ClaimHTLC: look the record up, require state Open, verify the secret
against the hash lock, transfer the escrowed amount to the receiver, then
persist the record with the revealed secret and state Completed. -/
def ClaimHTLC (hash : Bytes → Bytes) (addrHash : Bytes → Bytes) (bankOk : BankOk)
    (s : Store) (secret : Bytes) (secretHashLock : Bytes) : OpResult :=
  match GetHTLC s secretHashLock with
  | Except.error e => ⟨s, [], some e⟩
  | Except.ok htlc =>
    if htlc.State ≠ HTLCState.Open then
      ⟨s, [], some Err.stateIsNotOpen⟩
    else if GetSecretHashLock hash secret htlc.Timestamp ≠ secretHashLock then
      ⟨s, [], some Err.invalidSecret⟩
    else
      let htlcAddr := getHTLCAddress addrHash htlc.OutAmount.Denom
      let t : Transfer := ⟨htlcAddr, htlc.Receiver, htlc.OutAmount⟩
      if bankOk htlcAddr htlc.Receiver htlc.OutAmount then
        let htlc2 := { htlc with Secret := secret, State := HTLCState.Completed }
        ⟨SetHTLC s htlc2 secretHashLock, [t], none⟩
      else
        ⟨s, [t], some Err.sendCoinsFailed⟩

/-- RefundHTLC: look the record up, require state Expired, transfer the
escrowed amount back to the sender, then persist the record with state
Refunded. -/
def RefundHTLC (addrHash : Bytes → Bytes) (bankOk : BankOk)
    (s : Store) (secretHashLock : Bytes) : OpResult :=
  match GetHTLC s secretHashLock with
  | Except.error e => ⟨s, [], some e⟩
  | Except.ok htlc =>
    if htlc.State ≠ HTLCState.Expired then
      ⟨s, [], some Err.stateIsNotOpen⟩
    else
      let htlcAddr := getHTLCAddress addrHash htlc.OutAmount.Denom
      let t : Transfer := ⟨htlcAddr, htlc.Sender, htlc.OutAmount⟩
      if bankOk htlcAddr htlc.Sender htlc.OutAmount then
        let htlc2 := { htlc with State := HTLCState.Refunded }
        ⟨SetHTLC s htlc2 secretHashLock, [t], none⟩
      else
        ⟨s, [t], some Err.sendCoinsFailed⟩

/-- Modelled from the spec: the message handler (not under src/) constructs
the record with state Open and an empty secret before calling CreateHTLC
(spec §4.4, Create steps: insert record with state=Open; §3: secret is
empty until Claim succeeds). -/
def createHTLCOp (addrHash : Bytes → Bytes) (bankOk : BankOk) (s : Store)
    (sender receiver : AccAddress) (receiverOnOtherChain : Bytes) (outAmount : Coin)
    (secretHashLock : Bytes) (timestamp expireHeight : Nat) : OpResult :=
  CreateHTLC addrHash bankOk s
    ⟨sender, receiver, receiverOnOtherChain, outAmount, [], timestamp,
      HTLCState.Open, expireHeight⟩
    secretHashLock

/-- Modelled from the spec: the sweep collaborator's height-scoped range
query over the expiration index (§4.3): the digests stored under the
height's key prefix.  AddHTLCToExpireQueue always stores the digest that is
the key's suffix, so an index entry is characterised by its key being
KeyHTLCExpireQueue of the height and the stored digest. -/
def expireScan (s : Store) (expireHeight : Nat) : List Bytes :=
  s.filterMap fun e =>
    match e.2 with
    | StoreValue.digest d =>
      if e.1 = KeyHTLCExpireQueue expireHeight d then some d else none
    | StoreValue.record _ => none

/-- The spec's secret/state invariant (§3): a stored record's secret is
non-empty iff its state is Completed. -/
def secretInv (s : Store) : Prop :=
  ∀ k r, storeGet s k = some (StoreValue.record r) →
    (r.Secret ≠ [] ↔ r.State = HTLCState.Completed)

/-! ### Store lemmas -/

theorem storeGet_storeDelete_ne (s : Store) (k k' : Bytes) (h : k ≠ k') :
    storeGet (storeDelete s k) k' = storeGet s k' := by
  induction s with
  | nil => rfl
  | cons e rest ih =>
    by_cases he : e.1 = k
    · have hne : e.1 ≠ k' := fun hk => h (he.symm.trans hk)
      simp [storeDelete, he, storeGet, hne, ih, h]
    · simp only [storeDelete, if_neg he, storeGet]
      by_cases h2 : e.1 = k' <;> simp [h2, ih]

theorem storeGet_storeDelete_self (s : Store) (k : Bytes) :
    storeGet (storeDelete s k) k = none := by
  induction s with
  | nil => rfl
  | cons e rest ih =>
    by_cases he : e.1 = k
    · simp [storeDelete, he, ih]
    · simp [storeDelete, he, storeGet, ih]

theorem storeGet_storeSet_self (s : Store) (k : Bytes) (v : StoreValue) :
    storeGet (storeSet s k v) k = some v := by
  simp [storeSet, storeGet]

theorem storeGet_storeSet_ne (s : Store) (k k' : Bytes) (v : StoreValue) (h : k ≠ k') :
    storeGet (storeSet s k v) k' = storeGet s k' := by
  simp only [storeSet, storeGet, if_neg h]
  exact storeGet_storeDelete_ne s k k' h

theorem not_mem_storeDelete_self (s : Store) (k : Bytes) (v : StoreValue) :
    (k, v) ∉ storeDelete s k := by
  induction s with
  | nil => simp [storeDelete]
  | cons e rest ih =>
    by_cases he : e.1 = k
    · simpa [storeDelete, he] using ih
    · simp only [storeDelete, if_neg he, List.mem_cons]
      rintro (hev | hmem)
      · exact he (by rw [← hev])
      · exact ih hmem

/-! ### Key-scheme lemmas -/

theorem length_uint64ToBigEndian (n : Nat) : (uint64ToBigEndian n).length = 8 := rfl

/-- A record key never coincides with the expiration-index key of the same
digest: the keys differ in length. -/
theorem KeyHTLC_ne_KeyHTLCExpireQueue (h : Nat) (d : Bytes) :
    KeyHTLC d ≠ KeyHTLCExpireQueue h d := by
  intro heq
  have hlen := congrArg List.length heq
  simp only [KeyHTLC, KeyHTLCExpireQueue, List.length_append,
    length_uint64ToBigEndian] at hlen
  have h1 : (strToBytes "htlc:").length = 5 := rfl
  have h2 : (strToBytes "htlc:expire:").length = 12 := rfl
  omega

/-! ### Expiration-scan lemma -/

theorem mem_expireScan (s : Store) (h : Nat) (d : Bytes) :
    d ∈ expireScan s h ↔ (KeyHTLCExpireQueue h d, StoreValue.digest d) ∈ s := by
  simp only [expireScan, List.mem_filterMap]
  constructor
  · rintro ⟨⟨k, v⟩, hmem, he⟩
    cases v with
    | record r => simp at he
    | digest d' =>
      by_cases hk : k = KeyHTLCExpireQueue h d'
      · have hd : d' = d := by simpa [hk] using he
        subst hd
        rw [hk] at hmem
        exact hmem
      · simp [hk] at he
  · intro hmem
    exact ⟨(KeyHTLCExpireQueue h d, StoreValue.digest d), hmem, by simp⟩

/-! ### Operation shape lemmas -/

/-- A successful ClaimHTLC found an Open record whose hash lock verifies,
and its full outcome is determined by that record. -/
theorem ClaimHTLC_success_shape (hash addrHash : Bytes → Bytes) (bankOk : BankOk)
    (s : Store) (secret shl : Bytes)
    (hok : (ClaimHTLC hash addrHash bankOk s secret shl).err = none) :
    ∃ r, storeGet s (KeyHTLC shl) = some (StoreValue.record r)
      ∧ r.State = HTLCState.Open
      ∧ GetSecretHashLock hash secret r.Timestamp = shl
      ∧ ClaimHTLC hash addrHash bankOk s secret shl
          = ⟨SetHTLC s { r with Secret := secret, State := HTLCState.Completed } shl,
             [⟨getHTLCAddress addrHash r.OutAmount.Denom, r.Receiver, r.OutAmount⟩], none⟩ := by
  cases hget : storeGet s (KeyHTLC shl) with
  | none => simp [ClaimHTLC, GetHTLC, hget] at hok
  | some v =>
    cases v with
    | digest d => simp [ClaimHTLC, GetHTLC, hget] at hok
    | record r =>
      by_cases hst : r.State = HTLCState.Open
      · by_cases hsec : GetSecretHashLock hash secret r.Timestamp = shl
        · by_cases hb : bankOk (getHTLCAddress addrHash r.OutAmount.Denom) r.Receiver
              r.OutAmount = true
          · exact ⟨r, rfl, hst, hsec, by simp [ClaimHTLC, GetHTLC, hget, hst, hsec, hb]⟩
          · simp [ClaimHTLC, GetHTLC, hget, hst, hsec, hb] at hok
        · simp [ClaimHTLC, GetHTLC, hget, hst, hsec] at hok
      · simp [ClaimHTLC, GetHTLC, hget, hst] at hok

/-- A successful RefundHTLC found an Expired record, and its full outcome is
determined by that record. -/
theorem RefundHTLC_success_shape (addrHash : Bytes → Bytes) (bankOk : BankOk)
    (s : Store) (shl : Bytes)
    (hok : (RefundHTLC addrHash bankOk s shl).err = none) :
    ∃ r, storeGet s (KeyHTLC shl) = some (StoreValue.record r)
      ∧ r.State = HTLCState.Expired
      ∧ RefundHTLC addrHash bankOk s shl
          = ⟨SetHTLC s { r with State := HTLCState.Refunded } shl,
             [⟨getHTLCAddress addrHash r.OutAmount.Denom, r.Sender, r.OutAmount⟩], none⟩ := by
  cases hget : storeGet s (KeyHTLC shl) with
  | none => simp [RefundHTLC, GetHTLC, hget] at hok
  | some v =>
    cases v with
    | digest d => simp [RefundHTLC, GetHTLC, hget] at hok
    | record r =>
      by_cases hst : r.State = HTLCState.Expired
      · by_cases hb : bankOk (getHTLCAddress addrHash r.OutAmount.Denom) r.Sender
            r.OutAmount = true
        · exact ⟨r, rfl, hst, by simp [RefundHTLC, GetHTLC, hget, hst, hb]⟩
        · simp [RefundHTLC, GetHTLC, hget, hst, hb] at hok
      · simp [RefundHTLC, GetHTLC, hget, hst] at hok

/-- A successful CreateHTLC found no record at the hash lock, and its full
outcome is determined by its arguments. -/
theorem CreateHTLC_success_shape (addrHash : Bytes → Bytes) (bankOk : BankOk)
    (s : Store) (htlc : HTLC) (shl : Bytes)
    (hok : (CreateHTLC addrHash bankOk s htlc shl).err = none) :
    HasSecretHashLock s shl = false
    ∧ CreateHTLC addrHash bankOk s htlc shl
        = ⟨AddHTLCToExpireQueue (SetHTLC s htlc shl) htlc.ExpireHeight shl,
           [⟨htlc.Sender, getHTLCAddress addrHash htlc.OutAmount.Denom, htlc.OutAmount⟩],
           none⟩ := by
  by_cases hd : HasSecretHashLock s shl = true
  · simp [CreateHTLC, hd] at hok
  · by_cases hb : bankOk htlc.Sender (getHTLCAddress addrHash htlc.OutAmount.Denom)
        htlc.OutAmount = true
    · exact ⟨by simpa using hd, by simp [CreateHTLC, hd, hb]⟩
    · simp [CreateHTLC, hd, hb] at hok

/-! ### Concrete sample data, used to instantiate the theorems below -/

/-- A sample digest. -/
def sampleDigest : Bytes := [9]

/-- A sample hash collaborator mapping everything to sampleDigest. -/
def sampleHash : Bytes → Bytes := fun _ => sampleDigest

/-- A sample address-hash collaborator. -/
def sampleAddrHash : Bytes → Bytes := fun b => 0 :: b

/-- A sample bank collaborator that accepts every transfer. -/
def sampleBank : BankOk := fun _ _ _ => true

/-- A sample escrowed coin. -/
def sampleCoin : Coin := ⟨"atom", 100⟩

/-- A sample Open record. -/
def sampleOpen : HTLC :=
  ⟨[1], [2], [3], sampleCoin, [], 7, HTLCState.Open, 1000⟩

/-- A sample Expired record. -/
def sampleExpired : HTLC :=
  ⟨[1], [2], [3], sampleCoin, [], 7, HTLCState.Expired, 1000⟩

/-- A store holding the sample Open record at sampleDigest. -/
def sampleStoreOpen : Store := SetHTLC [] sampleOpen sampleDigest

/-- A store holding the sample Expired record at sampleDigest. -/
def sampleStoreExpired : Store := SetHTLC [] sampleExpired sampleDigest

/-! ### The claims -/

/-- C7: GetSecretHashLock is a deterministic pure function equal to the hash
of the concatenation secret ‖ big-endian(timestamp): it is literally the
hash collaborator applied to that concatenation, equal (secret, timestamp)
inputs produce equal digests, and the timestamp encoding really is the
8-byte big-endian encoding of the timestamp as a uint64. -/
theorem GetSecretHashLock_pure (hash : Bytes → Bytes) (secret : Bytes) (timestamp : Nat) :
    GetSecretHashLock hash secret timestamp = hash (secret ++ uint64ToBigEndian timestamp)
    ∧ (∀ secret2 timestamp2, secret = secret2 → timestamp = timestamp2 →
        GetSecretHashLock hash secret timestamp = GetSecretHashLock hash secret2 timestamp2)
    ∧ (uint64ToBigEndian timestamp).length = 8
    ∧ bytesToNatBE (uint64ToBigEndian timestamp) = timestamp % 2 ^ 64 := by
  refine ⟨rfl, fun s2 t2 hs ht => by rw [hs, ht], rfl, ?_⟩
  simp only [bytesToNatBE, uint64ToBigEndian, List.foldl]
  norm_num
  omega

/-- Witness for C7 at hash = sampleHash, secret = [5], timestamp = 7. -/
theorem GetSecretHashLock_pure_witness :
    GetSecretHashLock sampleHash [5] 7 = sampleHash ([5] ++ uint64ToBigEndian 7)
    ∧ bytesToNatBE (uint64ToBigEndian 7) = 7 % 2 ^ 64 := by
  have h := GetSecretHashLock_pure sampleHash [5] 7
  exact ⟨h.1, h.2.2.2⟩

/-- C8: the record store and the expiration index round-trip: reading back a
stored record at its key returns it unchanged; adding an expiration-index
entry makes the digest appear in the height's range scan; removing the entry
makes the digest absent from subsequent scans. -/
theorem store_index_roundtrip (s : Store) (r : HTLC) (expireHeight : Nat) (d : Bytes) :
    storeGet (SetHTLC s r d) (KeyHTLC d) = some (StoreValue.record r)
    ∧ d ∈ expireScan (AddHTLCToExpireQueue s expireHeight d) expireHeight
    ∧ d ∉ expireScan (DeleteHTLCFromExpireQueue s expireHeight d) expireHeight := by
  refine ⟨storeGet_storeSet_self _ _ _, ?_, ?_⟩
  · rw [mem_expireScan]
    simp [AddHTLCToExpireQueue, storeSet]
  · rw [mem_expireScan]
    exact not_mem_storeDelete_self _ _ _

/-- Witness for C8 at the sample store, record and digest. -/
theorem store_index_roundtrip_witness :
    storeGet (SetHTLC sampleStoreOpen sampleExpired sampleDigest) (KeyHTLC sampleDigest)
      = some (StoreValue.record sampleExpired)
    ∧ sampleDigest ∈ expireScan (AddHTLCToExpireQueue sampleStoreOpen 1000 sampleDigest) 1000
    ∧ sampleDigest ∉ expireScan
        (DeleteHTLCFromExpireQueue sampleStoreOpen 1000 sampleDigest) 1000 :=
  store_index_roundtrip sampleStoreOpen sampleExpired 1000 sampleDigest

/-- C3: CreateHTLC fails with the duplicate-hash-lock error iff a record
already exists at the hash lock, and on that failure path no bank transfer
is invoked and the store is untouched. -/
theorem CreateHTLC_duplicate_iff (addrHash : Bytes → Bytes) (bankOk : BankOk)
    (s : Store) (htlc : HTLC) (shl : Bytes) :
    ((CreateHTLC addrHash bankOk s htlc shl).err = some Err.secretHashLockAlreadyExists
      ↔ HasSecretHashLock s shl = true)
    ∧ (HasSecretHashLock s shl = true →
        (CreateHTLC addrHash bankOk s htlc shl).transfers = []
        ∧ (CreateHTLC addrHash bankOk s htlc shl).store = s) := by
  by_cases hd : HasSecretHashLock s shl = true
  · simp [CreateHTLC, hd]
  · by_cases hb : bankOk htlc.Sender (getHTLCAddress addrHash htlc.OutAmount.Denom)
        htlc.OutAmount = true
    · simp [CreateHTLC, hd, hb]
    · simp [CreateHTLC, hd, hb]

/-- Witness for C3 at a store already holding a record at sampleDigest. -/
theorem CreateHTLC_duplicate_iff_witness :
    ((CreateHTLC sampleAddrHash sampleBank sampleStoreOpen sampleExpired sampleDigest).err
      = some Err.secretHashLockAlreadyExists
      ↔ HasSecretHashLock sampleStoreOpen sampleDigest = true)
    ∧ (CreateHTLC sampleAddrHash sampleBank sampleStoreOpen sampleExpired sampleDigest).transfers
      = []
    ∧ (CreateHTLC sampleAddrHash sampleBank sampleStoreOpen sampleExpired sampleDigest).store
      = sampleStoreOpen := by
  have h := CreateHTLC_duplicate_iff sampleAddrHash sampleBank sampleStoreOpen
    sampleExpired sampleDigest
  exact ⟨h.1, h.2 (by decide)⟩

/-- A CreateHTLC that returns an error leaves the store untouched. -/
theorem CreateHTLC_err_keeps_store (addrHash : Bytes → Bytes) (bankOk : BankOk)
    (s : Store) (htlc : HTLC) (shl : Bytes)
    (herr : (CreateHTLC addrHash bankOk s htlc shl).err.isSome = true) :
    (CreateHTLC addrHash bankOk s htlc shl).store = s := by
  by_cases hd : HasSecretHashLock s shl = true
  · simp [CreateHTLC, hd]
  · by_cases hb : bankOk htlc.Sender (getHTLCAddress addrHash htlc.OutAmount.Denom)
        htlc.OutAmount = true
    · simp [CreateHTLC, hd, hb] at herr
    · simp [CreateHTLC, hd, hb]

/-- A ClaimHTLC that returns an error leaves the store untouched. -/
theorem ClaimHTLC_err_keeps_store (hash addrHash : Bytes → Bytes) (bankOk : BankOk)
    (s : Store) (secret shl : Bytes)
    (herr : (ClaimHTLC hash addrHash bankOk s secret shl).err.isSome = true) :
    (ClaimHTLC hash addrHash bankOk s secret shl).store = s := by
  cases hget : storeGet s (KeyHTLC shl) with
  | none => simp [ClaimHTLC, GetHTLC, hget]
  | some v =>
    cases v with
    | digest d => simp [ClaimHTLC, GetHTLC, hget]
    | record r =>
      by_cases hst : r.State = HTLCState.Open
      · by_cases hsec : GetSecretHashLock hash secret r.Timestamp = shl
        · by_cases hb : bankOk (getHTLCAddress addrHash r.OutAmount.Denom) r.Receiver
              r.OutAmount = true
          · simp [ClaimHTLC, GetHTLC, hget, hst, hsec, hb] at herr
          · simp [ClaimHTLC, GetHTLC, hget, hst, hsec, hb]
        · simp [ClaimHTLC, GetHTLC, hget, hst, hsec]
      · simp [ClaimHTLC, GetHTLC, hget, hst]

/-- A RefundHTLC that returns an error leaves the store untouched. -/
theorem RefundHTLC_err_keeps_store (addrHash : Bytes → Bytes) (bankOk : BankOk)
    (s : Store) (shl : Bytes)
    (herr : (RefundHTLC addrHash bankOk s shl).err.isSome = true) :
    (RefundHTLC addrHash bankOk s shl).store = s := by
  cases hget : storeGet s (KeyHTLC shl) with
  | none => simp [RefundHTLC, GetHTLC, hget]
  | some v =>
    cases v with
    | digest d => simp [RefundHTLC, GetHTLC, hget]
    | record r =>
      by_cases hst : r.State = HTLCState.Expired
      · by_cases hb : bankOk (getHTLCAddress addrHash r.OutAmount.Denom) r.Sender
            r.OutAmount = true
        · simp [RefundHTLC, GetHTLC, hget, hst, hb] at herr
        · simp [RefundHTLC, GetHTLC, hget, hst, hb]
      · simp [RefundHTLC, GetHTLC, hget, hst]

/-- C4: every operation that returns an error — the precondition failures
and the bank-transfer failure alike — leaves the store (record entries and
expiration-index entries) exactly as it was before the call. -/
theorem ops_no_mutation_on_error (hash addrHash : Bytes → Bytes) (bankOk : BankOk)
    (s : Store) (htlc : HTLC) (secret shl : Bytes) :
    ((CreateHTLC addrHash bankOk s htlc shl).err.isSome = true →
      (CreateHTLC addrHash bankOk s htlc shl).store = s)
    ∧ ((ClaimHTLC hash addrHash bankOk s secret shl).err.isSome = true →
      (ClaimHTLC hash addrHash bankOk s secret shl).store = s)
    ∧ ((RefundHTLC addrHash bankOk s shl).err.isSome = true →
      (RefundHTLC addrHash bankOk s shl).store = s) :=
  ⟨CreateHTLC_err_keeps_store addrHash bankOk s htlc shl,
   ClaimHTLC_err_keeps_store hash addrHash bankOk s secret shl,
   RefundHTLC_err_keeps_store addrHash bankOk s shl⟩

/-- Witness for C4: a duplicate Create, a Claim on an absent record and a
Refund on an Open record all leave the sample store untouched. -/
theorem ops_no_mutation_on_error_witness :
    (CreateHTLC sampleAddrHash sampleBank sampleStoreOpen sampleExpired sampleDigest).store
      = sampleStoreOpen
    ∧ (ClaimHTLC sampleHash sampleAddrHash sampleBank sampleStoreOpen [5] [8]).store
      = sampleStoreOpen
    ∧ (RefundHTLC sampleAddrHash sampleBank sampleStoreOpen sampleDigest).store
      = sampleStoreOpen := by
  have h := ops_no_mutation_on_error sampleHash sampleAddrHash sampleBank sampleStoreOpen
    sampleExpired [5] sampleDigest
  have h2 := ops_no_mutation_on_error sampleHash sampleAddrHash sampleBank sampleStoreOpen
    sampleExpired [5] [8]
  exact ⟨h.1 (by decide), h2.2.1 (by decide), h.2.2 (by decide)⟩

/-- C5: a successful Create(sender, receiver, receiverOnOtherChain,
outAmount, secretHashLock, timestamp, expireHeight) inserts at the hash lock
a record whose state is Open, and inserts the expiration-index entry keyed
by (expireHeight, secretHashLock). -/
theorem createHTLCOp_success_inserts (addrHash : Bytes → Bytes) (bankOk : BankOk)
    (s : Store) (sender receiver : AccAddress) (roc : Bytes) (amt : Coin)
    (shl : Bytes) (ts eh : Nat)
    (hok : (createHTLCOp addrHash bankOk s sender receiver roc amt shl ts eh).err = none) :
    storeGet (createHTLCOp addrHash bankOk s sender receiver roc amt shl ts eh).store
        (KeyHTLC shl)
      = some (StoreValue.record
          ⟨sender, receiver, roc, amt, [], ts, HTLCState.Open, eh⟩)
    ∧ (⟨sender, receiver, roc, amt, [], ts, HTLCState.Open, eh⟩ : HTLC).State
      = HTLCState.Open
    ∧ storeGet (createHTLCOp addrHash bankOk s sender receiver roc amt shl ts eh).store
        (KeyHTLCExpireQueue eh shl)
      = some (StoreValue.digest shl) := by
  obtain ⟨-, hshape⟩ := CreateHTLC_success_shape addrHash bankOk s
    ⟨sender, receiver, roc, amt, [], ts, HTLCState.Open, eh⟩ shl hok
  unfold createHTLCOp
  rw [hshape]
  refine ⟨?_, rfl, ?_⟩
  · show storeGet (AddHTLCToExpireQueue (SetHTLC s _ shl) eh shl) (KeyHTLC shl) = _
    rw [AddHTLCToExpireQueue,
      storeGet_storeSet_ne _ _ _ _ (KeyHTLC_ne_KeyHTLCExpireQueue eh shl).symm]
    exact storeGet_storeSet_self _ _ _
  · exact storeGet_storeSet_self _ _ _

/-- Witness for C5 at the empty store and the sample parameters. -/
theorem createHTLCOp_success_inserts_witness :
    storeGet (createHTLCOp sampleAddrHash sampleBank [] [1] [2] [3] sampleCoin
        sampleDigest 7 1000).store (KeyHTLC sampleDigest)
      = some (StoreValue.record ⟨[1], [2], [3], sampleCoin, [], 7, HTLCState.Open, 1000⟩)
    ∧ storeGet (createHTLCOp sampleAddrHash sampleBank [] [1] [2] [3] sampleCoin
        sampleDigest 7 1000).store (KeyHTLCExpireQueue 1000 sampleDigest)
      = some (StoreValue.digest sampleDigest) := by
  have h := createHTLCOp_success_inserts sampleAddrHash sampleBank [] [1] [2] [3]
    sampleCoin sampleDigest 7 1000 (by decide)
  exact ⟨h.1, h.2.2⟩

/-- C9: CreateHTLC never re-derives or verifies the caller-supplied hash
lock: it is not even given the hash collaborator, and with no existing
record at the hash lock and a succeeding transfer it succeeds for every
digest, whether or not the digest corresponds to any secret. -/
theorem CreateHTLC_no_secret_verification (addrHash : Bytes → Bytes) (bankOk : BankOk)
    (s : Store) (sender receiver : AccAddress) (roc : Bytes) (amt : Coin)
    (shl : Bytes) (ts eh : Nat)
    (hno : HasSecretHashLock s shl = false)
    (hbank : ∀ a b c, bankOk a b c = true) :
    (createHTLCOp addrHash bankOk s sender receiver roc amt shl ts eh).err = none := by
  simp [createHTLCOp, CreateHTLC, hno, hbank]

/-- Witness for C9 at the empty store with a digest ([8]) that sampleHash
never outputs, so it corresponds to no secret at all. -/
theorem CreateHTLC_no_secret_verification_witness :
    (createHTLCOp sampleAddrHash sampleBank [] [1] [2] [3] sampleCoin [8] 7 1000).err
      = none :=
  CreateHTLC_no_secret_verification sampleAddrHash sampleBank [] [1] [2] [3] sampleCoin
    [8] 7 1000 (by decide) (fun _ _ _ => rfl)

/-- C1: with the bank collaborator accepting the transfer, ClaimHTLC
succeeds iff a record exists at the hash lock, its state is Open, and
GetSecretHashLock(secret, record.Timestamp) equals the hash lock
byte-for-byte; and on success the persisted record carries state Completed
and the supplied secret, and exactly one transfer of record.OutAmount from
the denomination's escrow address to record.Receiver was invoked. -/
theorem ClaimHTLC_spec (hash addrHash : Bytes → Bytes) (bankOk : BankOk)
    (s : Store) (secret shl : Bytes)
    (hbank : ∀ a b c, bankOk a b c = true) :
    ((ClaimHTLC hash addrHash bankOk s secret shl).err = none ↔
      ∃ r, storeGet s (KeyHTLC shl) = some (StoreValue.record r)
        ∧ r.State = HTLCState.Open
        ∧ GetSecretHashLock hash secret r.Timestamp = shl)
    ∧ (∀ r, storeGet s (KeyHTLC shl) = some (StoreValue.record r) →
        r.State = HTLCState.Open →
        GetSecretHashLock hash secret r.Timestamp = shl →
        storeGet (ClaimHTLC hash addrHash bankOk s secret shl).store (KeyHTLC shl)
          = some (StoreValue.record
              { r with Secret := secret, State := HTLCState.Completed })
        ∧ (ClaimHTLC hash addrHash bankOk s secret shl).transfers
          = [⟨getHTLCAddress addrHash r.OutAmount.Denom, r.Receiver, r.OutAmount⟩]) := by
  refine ⟨⟨?_, ?_⟩, ?_⟩
  · intro hok
    obtain ⟨r, hget, hst, hsec, -⟩ :=
      ClaimHTLC_success_shape hash addrHash bankOk s secret shl hok
    exact ⟨r, hget, hst, hsec⟩
  · rintro ⟨r, hget, hst, hsec⟩
    simp [ClaimHTLC, GetHTLC, hget, hst, hsec, hbank]
  · intro r hget hst hsec
    have hok : (ClaimHTLC hash addrHash bankOk s secret shl).err = none := by
      simp [ClaimHTLC, GetHTLC, hget, hst, hsec, hbank]
    obtain ⟨r2, hget2, -, -, hshape⟩ :=
      ClaimHTLC_success_shape hash addrHash bankOk s secret shl hok
    rw [hget] at hget2
    obtain rfl : r2 = r := by injection hget2 with h; injection h with h2; exact h2.symm
    rw [hshape]
    exact ⟨storeGet_storeSet_self _ _ _, rfl⟩

/-- Witness for C1: claiming the sample Open record with the matching
secret persists the Completed record and makes exactly the escrow→receiver
transfer. -/
theorem ClaimHTLC_spec_witness :
    storeGet (ClaimHTLC sampleHash sampleAddrHash sampleBank sampleStoreOpen
        [5] sampleDigest).store (KeyHTLC sampleDigest)
      = some (StoreValue.record
          { sampleOpen with Secret := [5], State := HTLCState.Completed })
    ∧ (ClaimHTLC sampleHash sampleAddrHash sampleBank sampleStoreOpen
        [5] sampleDigest).transfers
      = [⟨getHTLCAddress sampleAddrHash sampleOpen.OutAmount.Denom, sampleOpen.Receiver,
          sampleOpen.OutAmount⟩] :=
  (ClaimHTLC_spec sampleHash sampleAddrHash sampleBank sampleStoreOpen [5] sampleDigest
    (fun _ _ _ => rfl)).2 sampleOpen (by decide) rfl rfl

/-- C2: RefundHTLC succeeds only on a record in state Expired (iff, given a
bank collaborator that accepts the transfer); on a record in any other
state (Open, Completed or Refunded) it fails with the InvalidState error
(ErrStateIsNotOpen), invokes no transfer and leaves the store untouched; on
success it makes exactly the escrow→sender transfer of record.OutAmount and
persists the record with state Refunded. -/
theorem RefundHTLC_spec (addrHash : Bytes → Bytes) (bankOk : BankOk)
    (s : Store) (shl : Bytes)
    (hbank : ∀ a b c, bankOk a b c = true) :
    ((RefundHTLC addrHash bankOk s shl).err = none ↔
      ∃ r, storeGet s (KeyHTLC shl) = some (StoreValue.record r)
        ∧ r.State = HTLCState.Expired)
    ∧ (∀ r, storeGet s (KeyHTLC shl) = some (StoreValue.record r) →
        r.State ≠ HTLCState.Expired →
        (RefundHTLC addrHash bankOk s shl).err = some Err.stateIsNotOpen
        ∧ (RefundHTLC addrHash bankOk s shl).transfers = []
        ∧ (RefundHTLC addrHash bankOk s shl).store = s)
    ∧ (∀ r, storeGet s (KeyHTLC shl) = some (StoreValue.record r) →
        r.State = HTLCState.Expired →
        (RefundHTLC addrHash bankOk s shl).transfers
          = [⟨getHTLCAddress addrHash r.OutAmount.Denom, r.Sender, r.OutAmount⟩]
        ∧ storeGet (RefundHTLC addrHash bankOk s shl).store (KeyHTLC shl)
          = some (StoreValue.record { r with State := HTLCState.Refunded })) := by
  refine ⟨⟨?_, ?_⟩, ?_, ?_⟩
  · intro hok
    obtain ⟨r, hget, hst, -⟩ := RefundHTLC_success_shape addrHash bankOk s shl hok
    exact ⟨r, hget, hst⟩
  · rintro ⟨r, hget, hst⟩
    simp [RefundHTLC, GetHTLC, hget, hst, hbank]
  · intro r hget hst
    simp [RefundHTLC, GetHTLC, hget, hst]
  · intro r hget hst
    have hok : (RefundHTLC addrHash bankOk s shl).err = none := by
      simp [RefundHTLC, GetHTLC, hget, hst, hbank]
    obtain ⟨r2, hget2, -, hshape⟩ := RefundHTLC_success_shape addrHash bankOk s shl hok
    rw [hget] at hget2
    obtain rfl : r2 = r := by injection hget2 with h; injection h with h2; exact h2.symm
    rw [hshape]
    exact ⟨rfl, storeGet_storeSet_self _ _ _⟩

/-- Witness for C2: refunding the sample Open record fails with the
InvalidState error without a transfer, while refunding the sample Expired
record makes exactly the escrow→sender transfer and persists state
Refunded. -/
theorem RefundHTLC_spec_witness :
    (RefundHTLC sampleAddrHash sampleBank sampleStoreOpen sampleDigest).err
      = some Err.stateIsNotOpen
    ∧ (RefundHTLC sampleAddrHash sampleBank sampleStoreOpen sampleDigest).transfers = []
    ∧ (RefundHTLC sampleAddrHash sampleBank sampleStoreExpired sampleDigest).transfers
      = [⟨getHTLCAddress sampleAddrHash sampleExpired.OutAmount.Denom, sampleExpired.Sender,
          sampleExpired.OutAmount⟩]
    ∧ storeGet (RefundHTLC sampleAddrHash sampleBank sampleStoreExpired sampleDigest).store
        (KeyHTLC sampleDigest)
      = some (StoreValue.record { sampleExpired with State := HTLCState.Refunded }) := by
  have hO := (RefundHTLC_spec sampleAddrHash sampleBank sampleStoreOpen sampleDigest
    (fun _ _ _ => rfl)).2.1 sampleOpen (by decide) (by decide)
  have hE := (RefundHTLC_spec sampleAddrHash sampleBank sampleStoreExpired sampleDigest
    (fun _ _ _ => rfl)).2.2 sampleExpired (by decide) rfl
  exact ⟨hO.1, hO.2.1, hE.1, hE.2⟩

/-- Setting a record whose secret/state satisfy the invariant preserves the
store-wide invariant. -/
theorem secretInv_storeSet_record (s : Store) (k : Bytes) (r : HTLC)
    (hinv : secretInv s) (hr : r.Secret ≠ [] ↔ r.State = HTLCState.Completed) :
    secretInv (storeSet s k (StoreValue.record r)) := by
  intro k' r' hget
  rcases eq_or_ne k k' with rfl | hne
  · rw [storeGet_storeSet_self] at hget
    injection hget with h
    injection h with h2
    rwa [← h2]
  · rw [storeGet_storeSet_ne s k k' _ hne] at hget
    exact hinv k' r' hget

/-- Setting an index (digest) value preserves the store-wide invariant. -/
theorem secretInv_storeSet_digest (s : Store) (k d : Bytes) (hinv : secretInv s) :
    secretInv (storeSet s k (StoreValue.digest d)) := by
  intro k' r' hget
  rcases eq_or_ne k k' with rfl | hne
  · rw [storeGet_storeSet_self] at hget
    simp at hget
  · rw [storeGet_storeSet_ne s k k' _ hne] at hget
    exact hinv k' r' hget

/-- The empty store satisfies the invariant. -/
theorem secretInv_nil : secretInv [] := fun _ r hget => by simp [storeGet] at hget

/-- A one-record store satisfies the invariant when the record does. -/
theorem secretInv_single (r : HTLC) (d : Bytes)
    (hr : r.Secret ≠ [] ↔ r.State = HTLCState.Completed) :
    secretInv (SetHTLC [] r d) :=
  secretInv_storeSet_record [] (KeyHTLC d) r secretInv_nil hr

/-- C6: every operation preserves the invariant that a stored record's
secret is non-empty iff its state is Completed — Create (as invoked by the
handler, with state Open and empty secret), Claim (whose supplied secret is
non-empty, message validation rejecting short secrets) and Refund. -/
theorem ops_preserve_secretInv (hash addrHash : Bytes → Bytes) (bankOk : BankOk)
    (s : Store) (hinv : secretInv s) :
    (∀ sender receiver roc amt shl ts eh,
      secretInv (createHTLCOp addrHash bankOk s sender receiver roc amt shl ts eh).store)
    ∧ (∀ secret shl, secret ≠ [] →
      secretInv (ClaimHTLC hash addrHash bankOk s secret shl).store)
    ∧ (∀ shl, secretInv (RefundHTLC addrHash bankOk s shl).store) := by
  refine ⟨?_, ?_, ?_⟩
  · intro sender receiver roc amt shl ts eh
    by_cases hok :
        (createHTLCOp addrHash bankOk s sender receiver roc amt shl ts eh).err = none
    · obtain ⟨-, hshape⟩ := CreateHTLC_success_shape addrHash bankOk s
        ⟨sender, receiver, roc, amt, [], ts, HTLCState.Open, eh⟩ shl hok
      unfold createHTLCOp
      rw [hshape]
      exact secretInv_storeSet_digest _ _ _
        (secretInv_storeSet_record _ _ _ hinv (by simp))
    · unfold createHTLCOp
      rw [CreateHTLC_err_keeps_store addrHash bankOk s _ shl
        (Option.isSome_iff_ne_none.mpr hok)]
      exact hinv
  · intro secret shl hsecret
    by_cases hok : (ClaimHTLC hash addrHash bankOk s secret shl).err = none
    · obtain ⟨r, -, -, -, hshape⟩ :=
        ClaimHTLC_success_shape hash addrHash bankOk s secret shl hok
      rw [hshape]
      exact secretInv_storeSet_record _ _ _ hinv (by simp [hsecret])
    · rw [ClaimHTLC_err_keeps_store hash addrHash bankOk s secret shl
        (Option.isSome_iff_ne_none.mpr hok)]
      exact hinv
  · intro shl
    by_cases hok : (RefundHTLC addrHash bankOk s shl).err = none
    · obtain ⟨r, hget, hst, hshape⟩ := RefundHTLC_success_shape addrHash bankOk s shl hok
      have hempty : r.Secret = [] := by
        by_contra hne
        have h2 := (hinv (KeyHTLC shl) r hget).mp hne
        simp [hst] at h2
      rw [hshape]
      exact secretInv_storeSet_record _ _ _ hinv (by simp [hempty])
    · rw [RefundHTLC_err_keeps_store addrHash bankOk s shl
        (Option.isSome_iff_ne_none.mpr hok)]
      exact hinv

/-- Witness for C6: the invariant survives claiming the sample Open record
and refunding the sample Expired record. -/
theorem ops_preserve_secretInv_witness :
    secretInv (ClaimHTLC sampleHash sampleAddrHash sampleBank sampleStoreOpen
      [5] sampleDigest).store
    ∧ secretInv (RefundHTLC sampleAddrHash sampleBank sampleStoreExpired
      sampleDigest).store :=
  ⟨(ops_preserve_secretInv sampleHash sampleAddrHash sampleBank sampleStoreOpen
      (secretInv_single sampleOpen sampleDigest (by decide))).2.1 [5] sampleDigest
      (by decide),
   (ops_preserve_secretInv sampleHash sampleAddrHash sampleBank sampleStoreExpired
      (secretInv_single sampleExpired sampleDigest (by decide))).2.2 sampleDigest⟩

/-- C10: a successful ClaimHTLC leaves the expiration-index entry at
(record.ExpireHeight, secretHashLock) exactly as it was — Claim never
deletes index entries; removal is the separate DeleteHTLCFromExpireQueue,
which does delete the entry and which no lifecycle operation invokes. -/
theorem ClaimHTLC_preserves_expire_index (hash addrHash : Bytes → Bytes) (bankOk : BankOk)
    (s : Store) (secret shl : Bytes)
    (hok : (ClaimHTLC hash addrHash bankOk s secret shl).err = none) :
    (∀ r, storeGet s (KeyHTLC shl) = some (StoreValue.record r) →
      storeGet (ClaimHTLC hash addrHash bankOk s secret shl).store
          (KeyHTLCExpireQueue r.ExpireHeight shl)
        = storeGet s (KeyHTLCExpireQueue r.ExpireHeight shl))
    ∧ (∀ eh d, storeGet (DeleteHTLCFromExpireQueue s eh d) (KeyHTLCExpireQueue eh d)
        = none) := by
  constructor
  · intro r hget
    obtain ⟨r2, hget2, -, -, hshape⟩ :=
      ClaimHTLC_success_shape hash addrHash bankOk s secret shl hok
    rw [hget] at hget2
    have hr : r2 = r := by injection hget2 with h; injection h with h2; exact h2.symm
    rw [hr] at hshape
    rw [hshape]
    exact storeGet_storeSet_ne _ _ _ _ (KeyHTLC_ne_KeyHTLCExpireQueue r.ExpireHeight shl)
  · intro eh d
    exact storeGet_storeDelete_self _ _

/-- Witness for C10: after claiming on a store holding both the sample Open
record and its expiration-index entry, the index entry is unchanged. -/
theorem ClaimHTLC_preserves_expire_index_witness :
    storeGet (ClaimHTLC sampleHash sampleAddrHash sampleBank
        (AddHTLCToExpireQueue sampleStoreOpen 1000 sampleDigest) [5] sampleDigest).store
      (KeyHTLCExpireQueue sampleOpen.ExpireHeight sampleDigest)
      = storeGet (AddHTLCToExpireQueue sampleStoreOpen 1000 sampleDigest)
          (KeyHTLCExpireQueue sampleOpen.ExpireHeight sampleDigest) :=
  (ClaimHTLC_preserves_expire_index sampleHash sampleAddrHash sampleBank
    (AddHTLCToExpireQueue sampleStoreOpen 1000 sampleDigest) [5] sampleDigest
    (by decide)).1 sampleOpen (by decide)

end HtlcKeeper

